import Mathlib

/-!
Verification of the cross-chain handler contract (CosmWasm).

This file shallowly embeds the contract's source into Lean 4:

* `src/helper.rs` — packed encoding (`pack`, `encode_packed`), the ethabi
  tuple codec as used by the contract (`get_request_packet`,
  `get_request_metadata`, `abi_decode_to_binary`, `abi_encode_string`),
  `assert_sent_sufficient_coin`, `validate_name`;
* `src/reply.rs` — the `reply` entry point and `handle_i_send_reply`,
  together with `cw_utils::parse_reply_execute_data` and its protobuf
  helpers (library code invoked by the source);
* `src/execute.rs` / `src/contract.rs` — `execute_register`,
  `execute_transfer`, `execute_i_ack`, and the inbound receive dispatch;
* `src/state.rs` — the storage items (`CONFIG`, `NAME_RESOLVER`, `REQUEST`,
  `RESULT`, `PENDING`) modelled as an explicit state record.

Rust byte buffers (`Vec<u8>`, `Binary`) are modelled as `List Nat` whose
elements are byte values; machine integers are modelled as `Nat` with
explicit `% 2 ^ w` at the points where the source truncates.
-/

namespace CwHandler

/-! ## Byte-level primitives -/

/-- Big-endian byte representation of `n` in exactly `k` bytes (the low
`8 * k` bits of `n`).  `beBytes 32 n` is the byte sequence produced by
iterating over a `U256`'s limbs most-significant first, as the source does
with `n.0.iter().rev()` followed by `to_be_bytes` on each limb. -/
def beBytes : Nat → Nat → List Nat
  | 0, _ => []
  | k + 1, n => beBytes k (n / 256) ++ [n % 256]

/-- Value of a big-endian byte sequence. -/
def bytesToNat (bs : List Nat) : Nat :=
  bs.foldl (fun acc b => acc * 256 + b) 0

/-- The 32-byte big-endian representation of a 256-bit word, as produced by
the source's `U256` byte dump. -/
def word256 (n : Nat) : List Nat := beBytes 32 n

theorem beBytes_length (k n : Nat) : (beBytes k n).length = k := by
  induction k generalizing n with
  | zero => simp [beBytes]
  | succ k ih => simp [beBytes, ih]

theorem beBytes_zero (k : Nat) : beBytes k 0 = List.replicate k 0 := by
  induction k with
  | zero => simp [beBytes]
  | succ k ih => simp [beBytes, ih, List.replicate_succ' k 0]

theorem bytesToNat_concat (l : List Nat) (x : Nat) :
    bytesToNat (l ++ [x]) = bytesToNat l * 256 + x := by
  simp [bytesToNat, List.foldl_append]

theorem bytesToNat_beBytes (k n : Nat) :
    bytesToNat (beBytes k n) = n % 256 ^ k := by
  induction k generalizing n with
  | zero => simp [beBytes, bytesToNat, Nat.mod_one]
  | succ k ih =>
    have hmul : n % 256 ^ (k + 1) = n % 256 + 256 * (n / 256 % 256 ^ k) := by
      have : (256 : Nat) ^ (k + 1) = 256 * 256 ^ k := by ring
      rw [this, Nat.mod_mul]
    rw [beBytes, bytesToNat_concat, ih, hmul]
    ring

theorem beBytes_drop (k j n : Nat) (h : j ≤ k) :
    (beBytes k n).drop j = beBytes (k - j) n := by
  induction k generalizing j n with
  | zero =>
    interval_cases j
    simp
  | succ k ih =>
    rcases Nat.lt_or_ge j (k + 1) with hj | hj
    · have hjk : j ≤ k := Nat.lt_succ_iff.mp hj
      have hlen : ((beBytes k (n / 256)).length : Nat) = k := beBytes_length _ _
      rw [beBytes, List.drop_append_of_le_length (by rw [hlen]; exact hjk), ih _ _ hjk]
      have hk : k + 1 - j = (k - j) + 1 := by omega
      rw [hk, beBytes]
    · have hj' : j = k + 1 := le_antisymm h hj
      subst hj'
      have hlen : (beBytes (k + 1) n).length = k + 1 := beBytes_length _ _
      rw [List.drop_eq_nil_of_le (by rw [hlen])]
      simp [beBytes]

theorem beBytes_add (a b n : Nat) :
    beBytes (a + b) n = beBytes a (n / 256 ^ b) ++ beBytes b n := by
  induction b generalizing n with
  | zero => simp [beBytes]
  | succ b ih =>
    have h1 : a + (b + 1) = (a + b) + 1 := by omega
    rw [h1, beBytes, ih (n / 256), Nat.div_div_eq_div_mul]
    have h2 : (256 : Nat) * 256 ^ b = 256 ^ (b + 1) := by ring
    rw [h2, List.append_assoc]
    rfl

theorem beBytes_take_zeros (j m n : Nat) (h : n < 256 ^ m) :
    (beBytes (j + m) n).take j = List.replicate j 0 := by
  rw [beBytes_add, Nat.div_eq_of_lt h, beBytes_zero]
  have hlen : (List.replicate j (0 : Nat)).length = j := by simp
  rw [List.take_left' hlen]

/-! ## ethabi `as_usize` / `peek` / `take` (library code used by `decode`) -/

/-- ethabi's `as_usize` on a 32-byte word: error unless the first 28 bytes
are zero, otherwise combine the last four bytes big-endian. -/
def as_usize (w : List Nat) : Option Nat :=
  if (w.take 28).all (· = 0) then some (bytesToNat (w.drop 28)) else none

theorem as_usize_spec (w : List Nat) (h : (w.take 28).all (fun b => b == 0) = true) :
    as_usize w = some (bytesToNat (w.drop 28)) := by
  rw [as_usize, if_pos]
  simpa using h

theorem as_usize_word256 (n : Nat) (h : n < 2 ^ 32) :
    as_usize (word256 n) = some n := by
  have h4 : n < 256 ^ 4 := by
    have e : (256 : Nat) ^ 4 = 2 ^ 32 := by norm_num
    rw [e]; exact h
  have htake : (word256 n).take 28 = List.replicate 28 0 := by
    have h32 : (32 : Nat) = 28 + 4 := by norm_num
    rw [word256, h32]
    exact beBytes_take_zeros 28 4 n h4
  have hdrop : (word256 n).drop 28 = beBytes 4 n := beBytes_drop 32 28 n (by norm_num)
  rw [as_usize_spec (word256 n) (by rw [htake]; simp), hdrop, bytesToNat_beBytes,
    Nat.mod_eq_of_lt h4]

/-! ## Right padding to a 32-byte boundary (ethabi `pad_bytes`) -/

/-- Length of `l` rounded up to a multiple of 32. -/
def pad32Len (l : Nat) : Nat := ((l + 31) / 32) * 32

/-- Right-pad a byte sequence with zeros to a 32-byte boundary. -/
def padRight32 (bs : List Nat) : List Nat :=
  bs ++ List.replicate (pad32Len bs.length - bs.length) 0

theorem le_pad32Len (l : Nat) : l ≤ pad32Len l := by
  unfold pad32Len
  omega

theorem padRight32_length (bs : List Nat) :
    (padRight32 bs).length = pad32Len bs.length := by
  have := le_pad32Len bs.length
  simp [padRight32]
  omega

theorem padRight32_take (bs : List Nat) :
    (padRight32 bs).take bs.length = bs := by
  rw [padRight32]
  exact List.take_left' rfl

/-! ## Strings as UTF-8 byte sequences -/

/-- Byte sequence of a Rust `String` / `&str` (`s.as_bytes()`): the UTF-8
encoding of its characters. -/
def strBytes (s : String) : List Nat :=
  (s.data.flatMap String.utf8EncodeChar).map (fun b => b.toNat)

/-- Lowercase hex digit, as produced by the `hex` crate and by
`write!("{:02x}", byte)`. -/
def hexDigit (n : Nat) : Char :=
  if n < 10 then Char.ofNat (48 + n) else Char.ofNat (87 + n)

/-- Two-character lowercase hex rendering of one byte. -/
def byteHex (b : Nat) : String :=
  String.mk [hexDigit (b / 16 % 16), hexDigit (b % 16)]

/-- Lowercase hex rendering of a byte sequence (`hex::encode`). -/
def hexOf (bs : List Nat) : String := String.join (bs.map byteHex)

/-! ## ethabi standard (tuple) encoding, as used by the contract

The contract only ever encodes tuples of dynamic elements
(`Token::String`, `Token::Bytes`), so the head section is one 32-byte
offset word per element and each tail is a 32-byte length word followed by
the right-padded payload (`ethabi::encode`'s head/tail layout). -/

/-- The dynamic tokens the contract passes to `ethabi::encode`. -/
inductive EthToken
  | string (s : String)
  | bytes (b : List Nat)

/-- Tail section of one dynamic token: length word + right-padded payload
(ethabi `pad_bytes`). -/
def ethTail : EthToken → List Nat
  | .string s => word256 (strBytes s).length ++ padRight32 (strBytes s)
  | .bytes b => word256 b.length ++ padRight32 b

/-- Head section: one offset word per element, each offset pointing at the
start of that element's tail. -/
def encodeHeads (offset : Nat) : List (List Nat) → List Nat
  | [] => []
  | t :: ts => word256 offset ++ encodeHeads (offset + t.length) ts

/-- `ethabi::encode` for a sequence of dynamic tokens. -/
def ethabi_encode (tokens : List EthToken) : List Nat :=
  let tails := tokens.map ethTail
  encodeHeads (32 * tokens.length) tails ++ tails.flatten

theorem ethabi_encode_single_bytes (x : List Nat) :
    ethabi_encode [EthToken.bytes x] =
      word256 32 ++ (word256 x.length ++ padRight32 x) := by
  simp [ethabi_encode, encodeHeads, ethTail]

theorem ethabi_encode_single_string (s : String) :
    ethabi_encode [EthToken.string s] =
      word256 32 ++ (word256 (strBytes s).length ++ padRight32 (strBytes s)) := by
  simp [ethabi_encode, encodeHeads, ethTail]

/-! ## ethabi decoding of a single dynamic-bytes parameter

Models `ethabi::decode(&[ParamType::Bytes], data)` as called from
`abi_decode_to_binary`: `peek_32_bytes`/`as_usize`/`take_bytes` follow the
ethabi decoder, and empty input is rejected up front (`Bytes` is not an
"empty bytes valid" parameter type). -/

/-- ethabi `peek_32_bytes`. -/
def peek_32_bytes (data : List Nat) (off : Nat) : Option (List Nat) :=
  if off + 32 ≤ data.length then some ((data.drop off).take 32) else none

/-- ethabi `take_bytes`. -/
def take_bytes (data : List Nat) (off len : Nat) : Option (List Nat) :=
  if off + len ≤ data.length then some ((data.drop off).take len) else none

/-- `ethabi::decode(&[ParamType::Bytes], data)`, returning the payload of
the single decoded `Token::Bytes`. -/
def decode_single_bytes (data : List Nat) : Option (List Nat) :=
  if data.length = 0 then none
  else
    (peek_32_bytes data 0).bind fun w0 =>
    (as_usize w0).bind fun dynOff =>
    (peek_32_bytes data dynOff).bind fun w1 =>
    (as_usize w1).bind fun len =>
    take_bytes data (dynOff + 32) len

/-! ## helper.rs -/

def MIN_NAME_LENGTH : Nat := 3
def MAX_NAME_LENGTH : Nat := 64
/-- The fixed operation tag for the outbound send sub-message
(`const ISEND_ID: u64 = 125`). -/
def ISEND_ID : Nat := 125

/-- `SolidityDataType` from helper.rs.  `Number` carries a `U256` (a `Nat`
reduced mod `2 ^ 256` by `word256` at packing time); `numberWithShift`'s
second argument is the declared bit width (`TakeLastXBytes`). -/
inductive SolidityDataType
  | string (s : String)
  | address (a : List Nat)
  | bytes (b : List Nat)
  | bool (b : Bool)
  | number (n : Nat)
  | numberWithShift (n : Nat) (toTake : Nat)

/-- `pack` from helper.rs: raw packed bytes of a single value.  For
`numberWithShift` the source materialises the full 32-byte big-endian
representation and then skips `32 - toTake / 8` leading bytes. -/
def pack : SolidityDataType → List Nat
  | .string s => strBytes s
  | .address a => a
  | .number n => word256 n
  | .bytes b => b
  | .bool b => if b then [1] else [0]
  | .numberWithShift n toTake =>
    let local_res := word256 n
    let to_skip := local_res.length - toTake / 8
    local_res.drop to_skip

/-- `encode_packed` from helper.rs: concatenation of the packed items,
paired with its hex rendering. -/
def encode_packed (items : List SolidityDataType) : List Nat × String :=
  let res := (items.map pack).flatten
  (res, hexOf res)

/-- `get_request_packet` from helper.rs: the ABI tuple
`(handler_address: string, payload: bytes)`. -/
def get_request_packet (handler_address : String) (payload : List Nat) : List Nat :=
  ethabi_encode [EthToken.string handler_address, EthToken.bytes payload]

/-- `get_request_metadata` from helper.rs: packed encoding of the eight
metadata fields (gas limit/price and ack gas limit/price at 64 bits,
relayer fees at 128 bits, ack type at 8 bits, a boolean byte, and the ASM
address string appended verbatim). -/
def get_request_metadata (gas_limit gas_price ack_gas_limit ack_gas_price
    relayer_fees ack_type : Nat) (is_read_call : Bool) (asm_address : String) :
    List Nat :=
  (encode_packed
    [ SolidityDataType.numberWithShift gas_limit 64,
      SolidityDataType.numberWithShift gas_price 64,
      SolidityDataType.numberWithShift ack_gas_limit 64,
      SolidityDataType.numberWithShift ack_gas_price 64,
      SolidityDataType.numberWithShift relayer_fees 128,
      SolidityDataType.numberWithShift ack_type 8,
      SolidityDataType.bool is_read_call,
      SolidityDataType.string asm_address ]).1

/-! ## Error types (error.rs is referenced throughout src; its variants are
the ones constructed in execute.rs / helper.rs / reply.rs and listed in the
spec's error taxonomy) -/

/-- `cosmwasm_std::StdError`, restricted to the variants the contract can
produce. -/
inductive StdError
  | genericErr (msg : String)
  | notFound (kind : String)
  | parseErr (target msg : String)
deriving DecidableEq

/-- `ContractError` (error.rs): the `Std` wrapper plus the typed failures
constructed in execute.rs and helper.rs. -/
inductive ContractError
  | std (e : StdError)
  | unauthorized
  | insufficientFundsSend
  | nameTaken (name : String)
  | nameNotExists (name : String)
  | nameTooShort (length min_length : Nat)
  | nameTooLong (length max_length : Nat)
  | invalidCharacter (c : Char)
deriving DecidableEq

/-- `abi_decode_to_binary` from helper.rs: decode a single dynamic-bytes
ABI parameter, mapping any ethabi failure to a generic error.  (The
source's `_ => vec![]` arm is unreachable: decoding `ParamType::Bytes`
always yields `Token::Bytes`.) -/
def abi_decode_to_binary (enc : List Nat) : Except ContractError (List Nat) :=
  match decode_single_bytes enc with
  | none => .error (.std (.genericErr "error: abi_decode_to_binary"))
  | some payload => .ok payload

/-- `abi_encode_string` from helper.rs: ABI 1-tuple of a dynamic string. -/
def abi_encode_string (stri : String) : List Nat :=
  ethabi_encode [EthToken.string stri]

/-- `cosmwasm_std::Coin`: denomination plus `Uint128` amount. -/
structure Coin where
  denom : String
  amount : Nat
deriving DecidableEq

/-- `assert_sent_sufficient_coin` from helper.rs. -/
def assert_sent_sufficient_coin (sent : List Coin) (required : Option Coin) :
    Except ContractError Unit :=
  match required with
  | some required_coin =>
    if 0 < required_coin.amount then
      if sent.any (fun coin =>
          coin.denom == required_coin.denom && required_coin.amount ≤ coin.amount) then
        .ok ()
      else
        .error .insufficientFundsSend
    else .ok ()
  | none => .ok ()

/-- `invalid_char` from helper.rs: valid characters are ascii digits,
ascii lowercase letters, and `.`, `-`, `_`. -/
def invalid_char (c : Char) : Bool :=
  let is_valid :=
    (('0' ≤ c && c ≤ '9') || ('a' ≤ c && c ≤ 'z') || (c == '.' || c == '-' || c == '_'))
  !is_valid

/-- `validate_name` from helper.rs: 3–64 bytes, all characters valid. -/
def validate_name (name : String) : Except ContractError Unit :=
  let length := (strBytes name).length
  if length < MIN_NAME_LENGTH then
    .error (.nameTooShort length MIN_NAME_LENGTH)
  else if MAX_NAME_LENGTH < length then
    .error (.nameTooLong length MAX_NAME_LENGTH)
  else
    match name.toList.find? (fun c => invalid_char c) with
    | none => .ok ()
    | some c => .error (.invalidCharacter c)

/-! ## state.rs -/

/-- `Config` from state.rs. -/
structure Config where
  purchase_price : Option Coin
  transfer_price : Option Coin
deriving DecidableEq

/-- `NameRecord` from state.rs (`Addr` modelled as a `String`). -/
structure NameRecord where
  owner : String
deriving DecidableEq

/-- `PendingRequests` from state.rs: ordered remote-assigned identifiers. -/
structure PendingRequests where
  requests : List Nat
deriving DecidableEq

/-- The contract's storage: the `Item`s `CONFIG`, `REQUEST`, `RESULT`,
`PENDING` (absent = never written) and the `Map` `NAME_RESOLVER` keyed by
the name's bytes. -/
structure ContractState where
  config : Option Config
  name_resolver : List Nat → Option NameRecord
  request : Option (List Nat)
  result : Option (List Nat)
  pending : Option PendingRequests

/-- A state with nothing stored yet. -/
def emptyState : ContractState :=
  { config := none, name_resolver := fun _ => none, request := none,
    result := none, pending := none }

/-- `NAME_RESOLVER.save`: point update of the keyed map. -/
def mapSave (m : List Nat → Option NameRecord) (key : List Nat)
    (record : NameRecord) : List Nat → Option NameRecord :=
  fun q => if q = key then some record else m q

/-- `cosmwasm_std::MessageInfo`. -/
structure MessageInfo where
  sender : String
  funds : List Coin

/-- The part of `cosmwasm_std::Env` the contract reads. -/
structure Env where
  contractAddress : String

/-- The part of a `cosmwasm_std::Response` the claims are about: the data
payload set with `set_data` (`none` for `Response::new()`). -/
structure Response where
  data : Option (List Nat)
deriving DecidableEq

/-! ## cw_utils reply parsing (library code invoked by reply.rs) -/

/-- `cosmwasm_std::SubMsgResponse`: the success payload of a sub-message
(events are never read by the contract and are omitted). -/
structure SubMsgResponse where
  data : Option (List Nat)
deriving DecidableEq

/-- `cosmwasm_std::SubMsgResult`. -/
inductive SubMsgResult
  | ok (resp : SubMsgResponse)
  | err (msg : String)
deriving DecidableEq

/-- `cosmwasm_std::Reply`. -/
structure Reply where
  id : Nat
  result : SubMsgResult
deriving DecidableEq

/-- `cw_utils::ParseReplyError` (the `BrokenUtf8` variant is kept for the
error classification in `handle_i_send_reply`; the byte-level model never
produces it). -/
inductive ParseReplyError
  | subMsgFailure (msg : String)
  | parseFailure (msg : String)
  | brokenUtf8
deriving DecidableEq

/-- `cw_utils::MsgExecuteContractResponse`: protobuf message with one
optional `bytes` field. -/
structure MsgExecuteContractResponse where
  data : Option (List Nat)
deriving DecidableEq

/-- The loop body of `cw_utils`'s `parse_protobuf_varint`: at most
`VARINT_MAX_BYTES = 9` bytes, seven payload bits each, little-endian
groups; a varint still carrying a continuation bit after nine bytes is
"varint data too long".  The accumulator is a `u64` (wrapping) and the
result is converted to the 32-bit `usize` of the wasm target. -/
def varintGo : Nat → Nat → List Nat → Except ParseReplyError (Nat × List Nat)
  | i, _, [] =>
    .error (.parseFailure
      (if 9 ≤ i then "varint data too long" else "varint data too short"))
  | i, len, b :: rest =>
    if 9 ≤ i then .error (.parseFailure "varint data too long")
    else
      let len2 := (len + b % 128 * 2 ^ (7 * i)) % 2 ^ 64
      if b < 128 then .ok (len2 % 2 ^ 32, rest)
      else varintGo (i + 1) len2 rest

/-- `cw_utils::parse_protobuf_varint`, returning the value and the bytes
after it. -/
def parse_protobuf_varint (data : List Nat) :
    Except ParseReplyError (Nat × List Nat) :=
  varintGo 0 0 data

/-- `cw_utils::parse_protobuf_length_prefixed`: empty input yields an empty
field; otherwise the tag byte must carry the expected field number
(`data[0] >> 3`) and wire type 2 under the library's two-bit wire-type mask
(`data[0] & 0b11`), followed by a varint length and that many payload
bytes.  Returns the payload and the remaining bytes. -/
def parse_protobuf_length_prefixed (data : List Nat) (field_number : Nat) :
    Except ParseReplyError (List Nat × List Nat) :=
  match data with
  | [] => .ok ([], [])
  | tagByte :: rest1 =>
    let wire_type := tagByte % 4
    let field := tagByte / 8
    if field ≠ field_number then
      .error (.parseFailure "invalid field")
    else if wire_type ≠ 2 then
      .error (.parseFailure "invalid wire type")
    else
      match parse_protobuf_varint rest1 with
      | .error e => .error e
      | .ok (len, rest2) =>
        if rest2.length < len then .error (.parseFailure "message too short")
        else .ok (rest2.take len, rest2.drop len)

/-- `cw_utils::parse_protobuf_bytes`: an empty payload is reported as an
absent field. -/
def parse_protobuf_bytes (data : List Nat) (field_number : Nat) :
    Except ParseReplyError (Option (List Nat) × List Nat) :=
  match parse_protobuf_length_prefixed data field_number with
  | .error e => .error e
  | .ok (bytes, rest) =>
    if bytes.isEmpty then .ok (none, rest) else .ok (some bytes, rest)

/-- `cw_utils::parse_execute_response_data`: field 1 of
`MsgExecuteContractResponse`. -/
def parse_execute_response_data (data : List Nat) :
    Except ParseReplyError MsgExecuteContractResponse :=
  match parse_protobuf_bytes data 1 with
  | .error e => .error e
  | .ok (inner, _) => .ok { data := inner }

/-- `cw_utils::parse_reply_execute_data`: a failed sub-message becomes
`SubMsgFailure`; a success without data is a `ParseFailure`; otherwise the
data is protobuf-decoded. -/
def parse_reply_execute_data (r : Reply) :
    Except ParseReplyError MsgExecuteContractResponse :=
  match r.result with
  | .err msg => .error (.subMsgFailure msg)
  | .ok resp =>
    match resp.data with
    | none => .error (.parseFailure "Missing reply data")
    | some d => parse_execute_response_data d

/-! ## JSON (de)serialization of the identifier (serde, library code) -/

/-- Value of a decimal digit string. -/
def digitsVal (bs : List Nat) : Nat :=
  bs.foldl (fun acc b => acc * 10 + (b - 48)) 0

/-- JSON whitespace bytes (space, tab, line feed, carriage return), which
serde-json-wasm skips before the value and tolerates after it. -/
def jsonWs (b : Nat) : Bool := b == 32 || b == 9 || b == 10 || b == 13

/-- `from_binary::<u64>` (serde-json-wasm): optional JSON whitespace
around a nonempty run of ascii digits without a redundant leading zero,
whose value fits in a `u64`. -/
def from_binary_u64 (bs : List Nat) : Option Nat :=
  let core := ((bs.dropWhile jsonWs).reverse.dropWhile jsonWs).reverse
  if core.isEmpty then none
  else if !(core.all fun b => Nat.ble 48 b && Nat.ble b 57) then none
  else if core.head? = some 48 && core != [48] then none
  else if 2 ^ 64 ≤ digitsVal core then none
  else some (digitsVal core)

/-- `to_binary` of a Rust `String` (serde JSON): the quoted UTF-8 bytes.
The diagnostic strings the contract serializes contain no characters that
JSON requires to be escaped. -/
def toBinaryString (s : String) : List Nat :=
  strBytes ("\"" ++ s ++ "\"")

/-! ## reply.rs -/

/-- Outcome of a reply invocation: a committed state with a response, an
error (the host rolls the invocation back), or an aborted invocation (a
Rust panic, from `Option::unwrap` on `None`). -/
inductive ReplyOutcome
  | ok (st : ContractState) (resp : Response)
  | err (e : ContractError)
  | panicked

/-- `handle_i_send_reply` from reply.rs: parse the gateway's execute
response, `unwrap` its optional data (panicking when absent), decode the
`u64` request identifier, append it to the pending ledger (defaulting to
empty), and answer with a confirmation string. -/
def handle_i_send_reply (st : ContractState) (r : Reply) : ReplyOutcome :=
  match parse_reply_execute_data r with
  | .ok ok_resp =>
    match ok_resp.data with
    | none => .panicked
    | some d =>
      match from_binary_u64 d with
      | none => .err (.std (.parseErr "u64" "from_binary"))
      | some request_identifier =>
        let pending_requests := st.pending.getD { requests := [] }
        let requests := pending_requests.requests ++ [request_identifier]
        let st1 := { st with pending := some { requests := requests } }
        .ok st1
          { data := some (toBinaryString
              ("handle_i_send_reply, request_identifier: " ++
                toString request_identifier)) }
  | .error err =>
    let err_str :=
      match err with
      | .subMsgFailure str1 => "SubMsgFailure: " ++ str1
      | .parseFailure str2 => "ParseFailure: " ++ str2
      | .brokenUtf8 => "BrokenUtf8"
    .err (.std (.genericErr err_str))

/-- The `reply` entry point from reply.rs: only the `ISEND_ID` tag is
routed to `handle_i_send_reply`; every other id is a generic error. -/
def replyEntry (st : ContractState) (r : Reply) : ReplyOutcome :=
  if r.id = ISEND_ID then handle_i_send_reply st r
  else
    .err (.std (.genericErr
      "=========================invalid reply id=========================="))

/-- Host semantics of one reply invocation: an `ok` outcome commits the new
state; an error or a panic rolls the invocation back. -/
def replyStep (st : ContractState) (r : Reply) : ContractState :=
  match replyEntry st r with
  | .ok st' _ => st'
  | _ => st

/-- A sequence of reply invocations delivered in order. -/
def processReplies (st : ContractState) (rs : List Reply) : ContractState :=
  rs.foldl replyStep st

/-- The pending ledger as a list (empty when never written). -/
def pendingList (st : ContractState) : List Nat :=
  (st.pending.getD { requests := [] }).requests

/-- A reply invocation tagged `ISEND_ID` whose sub-message result is a
success carrying a decodable 64-bit identifier — the hypothesis shape of
the ledger claims, expressed through the source's own parse chain. -/
def successId (r : Reply) : Option Nat :=
  if r.id = ISEND_ID then
    (parse_reply_execute_data r).toOption.bind fun resp =>
      resp.data.bind from_binary_u64
  else none

/-! ## execute.rs -/

/-- `CONFIG.load`: an `Item` load fails with `StdError::NotFound` when
nothing was stored. -/
def loadConfig (st : ContractState) : Except ContractError Config :=
  match st.config with
  | some config => .ok config
  | none => .error (.std (.notFound "Config"))

/-- `execute_register` from execute.rs: validate the name, check funds
against the purchase price, refuse an already-taken name, store the record,
and persist/return an ABI-encoded confirmation string. -/
def execute_register (st : ContractState) (info : MessageInfo) (name : String) :
    Except ContractError (ContractState × Response) :=
  match validate_name name with
  | .error e => .error e
  | .ok _ =>
    match loadConfig st with
    | .error e => .error e
    | .ok config =>
      match assert_sent_sufficient_coin info.funds config.purchase_price with
      | .error e => .error e
      | .ok _ =>
        let key := strBytes name
        let record : NameRecord := { owner := info.sender }
        if (st.name_resolver key).isSome then
          .error (.nameTaken name)
        else
          let st1 := { st with name_resolver := mapSave st.name_resolver key record }
          let result_txt :=
            "execute_register, name: " ++ name ++ ", owner: " ++ info.sender
          let result := abi_encode_string result_txt
          let st2 := { st1 with result := some result }
          .ok (st2, { data := some result })

/-- `execute_transfer` from execute.rs: check funds against the transfer
price, validate the recipient address (validation is host logic, passed in
as `api`), then update the record — refusing a non-owner sender and a
missing name — and persist/return the confirmation string (whose text the
source copy-pasted from `execute_register`). -/
def execute_transfer (api : String → Option String) (st : ContractState)
    (info : MessageInfo) (name toAddr : String) :
    Except ContractError (ContractState × Response) :=
  match loadConfig st with
  | .error e => .error e
  | .ok config =>
    match assert_sent_sufficient_coin info.funds config.transfer_price with
    | .error e => .error e
    | .ok _ =>
      match api toAddr with
      | none => .error (.std (.genericErr "Invalid input: addr_validate"))
      | some new_owner =>
        let key := strBytes name
        match st.name_resolver key with
        | some record =>
          if info.sender ≠ record.owner then
            .error .unauthorized
          else
            let st1 :=
              { st with name_resolver :=
                  mapSave st.name_resolver key { record with owner := new_owner } }
            let result_txt := "execute_register, name: " ++ name ++ ", to: " ++ toAddr
            let result := abi_encode_string result_txt
            let st2 := { st1 with result := some result }
            .ok (st2, { data := some result })
        | none => .error (.nameNotExists name)

/-- Rust `Display` of a `bool`. -/
def boolString (b : Bool) : String := if b then "true" else "false"

/-- `Debug` rendering of a `cosmwasm_std::Binary`. -/
def binaryDebug (bs : List Nat) : String := "Binary(" ++ hexOf bs ++ ")"

/-- The diagnostic string formatted by `execute_i_ack` in execute.rs. -/
def ackText (address : String) (request_identifier : Nat) (exec_status : Bool)
    (decoded : List Nat) : String :=
  "Ack from handler contract:\naddress: " ++ address ++
    "\nrequest_identifier: " ++ toString request_identifier ++
    "\nexec_status:" ++ boolString exec_status ++
    "\nexec_data:" ++ binaryDebug decoded

/-- `execute_i_ack` from execute.rs: ABI-decode the ack payload, persist it
as the last-request snapshot, format the diagnostic string, ABI-encode it,
persist it as the last-result snapshot, and return it as the response
data. -/
def execute_i_ack (st : ContractState) (env : Env) (request_identifier : Nat)
    (exec_status : Bool) (exec_data : List Nat) :
    Except ContractError (ContractState × Response) :=
  match abi_decode_to_binary exec_data with
  | .error e => .error e
  | .ok decoded =>
    let st1 := { st with request := some decoded }
    let result_txt :=
      ackText env.contractAddress request_identifier exec_status decoded
    let result := abi_encode_string result_txt
    let st2 := { st1 with result := some result }
    .ok (st2, { data := some result })

/-! ## Inbound receive dispatch (contract.rs) -/

/-- `ExecuteMsg` from msg.rs. -/
inductive ExecuteMsg
  | iSend (version route_amount : Nat) (route_recipient dest_chain_id : String)
      (request_metadata : List Nat) (gateway_address handler_address : String)
      (payload : List Nat)
  | iReceive (src_chain_id request_sender : String) (packet : List Nat)
  | iAck (request_identifier : Nat) (exec_status : Bool) (exec_data : List Nat)
  | setDappMetadata (fee_payer_address gateway_address : String)
  | register (name : String)
  | transfer (name toAddr : String)

/-- The dispatch of `execute_i_receive` from contract.rs, after
`from_binary` (library JSON deserialization, whose result is the `msg`
argument here) has turned the payload into an `ExecuteMsg`: `Register` and
`Transfer` are delegated to the registration logic, every other variant is
a generic error. -/
def execute_i_receive_dispatch (api : String → Option String)
    (st : ContractState) (info : MessageInfo) (msg : ExecuteMsg) :
    Except ContractError (ContractState × Response) :=
  match msg with
  | .register name => execute_register st info name
  | .transfer name toAddr => execute_transfer api st info name toAddr
  | _ => .error (.std (.genericErr "msg"))

/-- Host semantics of one register invocation: errors roll back. -/
def registerStep (st : ContractState) (info : MessageInfo) (name : String) :
    ContractState :=
  match execute_register st info name with
  | .ok (st', _) => st'
  | .error _ => st

/-- Host semantics of one transfer invocation: errors roll back. -/
def transferStep (api : String → Option String) (st : ContractState)
    (info : MessageInfo) (name toAddr : String) : ContractState :=
  match execute_transfer api st info name toAddr with
  | .ok (st', _) => st'
  | .error _ => st

/-! ## Codec lemmas shared by the claims -/

theorem word256_length (n : Nat) : (word256 n).length = 32 :=
  beBytes_length 32 n

theorem peek_32_bytes_zero (w rest : List Nat) (hw : w.length = 32) :
    peek_32_bytes (w ++ rest) 0 = some w := by
  rw [peek_32_bytes, if_pos (by simp [hw])]
  simp [List.take_left' hw]

theorem peek_32_bytes_mid (pre w rest : List Nat) (hw : w.length = 32) :
    peek_32_bytes (pre ++ (w ++ rest)) pre.length = some w := by
  rw [peek_32_bytes, if_pos (by simp [hw])]
  rw [List.drop_left, List.take_left' hw]

theorem take_bytes_padded (pre x : List Nat) :
    take_bytes (pre ++ padRight32 x) pre.length x.length = some x := by
  have hpx : x.length ≤ (padRight32 x).length := by
    rw [padRight32_length]; exact le_pad32Len _
  rw [take_bytes, if_pos (by simp; omega)]
  rw [List.drop_left, padRight32_take]

/-- Decoding recovers the payload from the single-dynamic-bytes encoding.
The length bound reflects ethabi's `as_usize`, which refuses any
length/offset word above `2 ^ 32 - 1` (and a Rust `Vec` on the wasm32
target cannot exceed that length anyway). -/
theorem decode_encode_bytes (x : List Nat) (h : x.length < 2 ^ 32) :
    decode_single_bytes (ethabi_encode [EthToken.bytes x]) = some x := by
  rw [ethabi_encode_single_bytes]
  have hne : ¬((word256 32 ++ (word256 x.length ++ padRight32 x)).length = 0) := by
    simp [word256_length]
  rw [decode_single_bytes, if_neg hne,
    peek_32_bytes_zero (word256 32) _ (word256_length 32), Option.some_bind,
    as_usize_word256 32 (by norm_num), Option.some_bind]
  have hp2 : peek_32_bytes (word256 32 ++ (word256 x.length ++ padRight32 x)) 32 =
      some (word256 x.length) := by
    have hm := peek_32_bytes_mid (word256 32) (word256 x.length) (padRight32 x)
      (word256_length _)
    rwa [word256_length] at hm
  rw [hp2, Option.some_bind, as_usize_word256 x.length h, Option.some_bind]
  have hassoc : word256 32 ++ (word256 x.length ++ padRight32 x) =
      (word256 32 ++ word256 x.length) ++ padRight32 x :=
    (List.append_assoc _ _ _).symm
  have ht := take_bytes_padded (word256 32 ++ word256 x.length) x
  rw [List.length_append, word256_length, word256_length] at ht
  rw [hassoc]
  exact ht

theorem pack_numberWithShift_drop (n w : Nat) :
    pack (SolidityDataType.numberWithShift n w) =
      (word256 n).drop (32 - w / 8) := by
  simp [pack, word256_length]

theorem pack_numberWithShift_length (n w : Nat) (h : w ≤ 256) :
    (pack (SolidityDataType.numberWithShift n w)).length = w / 8 := by
  rw [pack_numberWithShift_drop, List.length_drop, word256_length]
  omega

theorem pack_bool_length (b : Bool) :
    (pack (SolidityDataType.bool b)).length = 1 := by
  cases b <;> simp [pack]

/-! ## The claims -/

/-- **C1.** For every byte sequence `x` (any sequence a wasm32 `Vec<u8>`
can hold, i.e. of length below `2 ^ 32`), ABI-encoding `x` as a single
dynamic-bytes tuple — the layout `abi_decode_to_binary` inverts, which is
what the remote sender produces for the receive and acknowledge paths —
and then decoding with `abi_decode_to_binary` returns exactly `x`. -/
theorem abi_roundtrip_single_bytes (x : List Nat) (h : x.length < 2 ^ 32) :
    abi_decode_to_binary (ethabi_encode [EthToken.bytes x]) = .ok x := by
  rw [abi_decode_to_binary, decode_encode_bytes x h]

/-- Witness for C1 at the concrete payload `[1, 2, 3]`. -/
theorem abi_roundtrip_single_bytes_witness :
    ([1, 2, 3] : List Nat).length < 2 ^ 32 ∧
      abi_decode_to_binary (ethabi_encode [EthToken.bytes [1, 2, 3]]) =
        .ok [1, 2, 3] :=
  ⟨by norm_num, abi_roundtrip_single_bytes [1, 2, 3] (by norm_num)⟩

/-- **C2.** Packed encoding through the `NumberWithShift` branch keeps only
the low-order `w / 8` bytes of the value's 256-bit big-endian
representation (its value is the value mod `2 ^ w`), silently discarding
the high-order bytes and raising no error; in particular the value
`0x1_0000_0000_0000_0001` at a declared width of 64 bits packs to exactly
the eight bytes `0x0000000000000001`. -/
theorem packed_numberWithShift_truncates :
    (∀ n w : Nat, w ≤ 256 → 8 ∣ w →
      (pack (SolidityDataType.numberWithShift n w)).length = w / 8 ∧
      bytesToNat (pack (SolidityDataType.numberWithShift n w)) = n % 2 ^ w) ∧
    pack (SolidityDataType.numberWithShift 0x10000000000000001 64) =
      [0, 0, 0, 0, 0, 0, 0, 1] := by
  constructor
  · intro n w hle hdvd
    refine ⟨pack_numberWithShift_length n w hle, ?_⟩
    rw [pack_numberWithShift_drop, word256,
      beBytes_drop 32 (32 - w / 8) n (by omega), bytesToNat_beBytes]
    have hk : 32 - (32 - w / 8) = w / 8 := by omega
    rw [hk]
    have hpow : (256 : Nat) ^ (w / 8) = 2 ^ w := by
      have h8 : (256 : Nat) = 2 ^ 8 := by norm_num
      rw [h8, ← pow_mul, Nat.mul_div_cancel' hdvd]
    rw [hpow]
  · decide

/-- Witness for C2's quantified part, instantiated at the claim's own
example. -/
theorem packed_numberWithShift_truncates_witness :
    (pack (SolidityDataType.numberWithShift 0x10000000000000001 64)).length = 8 ∧
      bytesToNat (pack (SolidityDataType.numberWithShift 0x10000000000000001 64)) =
        0x10000000000000001 % 2 ^ 64 :=
  packed_numberWithShift_truncates.1 0x10000000000000001 64 (by norm_num) (by norm_num)

/-- **C4.** `get_request_metadata` is deterministic — it is a pure function
of its inputs, so equal inputs give a byte-identical buffer — and the
buffer's length is the sum of the declared field widths,
`8 + 8 + 8 + 8 + 16 + 1 + 1 = 50` bytes (the relayer fee truncated to 128
bits in this evolution), plus the byte length of `asm_address`. -/
theorem get_request_metadata_length (gas_limit gas_price ack_gas_limit
    ack_gas_price relayer_fees ack_type : Nat) (is_read_call : Bool)
    (asm_address : String) :
    get_request_metadata gas_limit gas_price ack_gas_limit ack_gas_price
        relayer_fees ack_type is_read_call asm_address =
      get_request_metadata gas_limit gas_price ack_gas_limit ack_gas_price
        relayer_fees ack_type is_read_call asm_address ∧
    (get_request_metadata gas_limit gas_price ack_gas_limit ack_gas_price
        relayer_fees ack_type is_read_call asm_address).length =
      50 + (strBytes asm_address).length := by
  refine ⟨rfl, ?_⟩
  rw [get_request_metadata, encode_packed]
  simp only [List.map_cons, List.map_nil, List.flatten_cons, List.flatten_nil,
    List.length_append, List.append_nil, List.length_nil]
  rw [pack_numberWithShift_length _ 64 (by norm_num),
    pack_numberWithShift_length _ 64 (by norm_num),
    pack_numberWithShift_length _ 64 (by norm_num),
    pack_numberWithShift_length _ 64 (by norm_num),
    pack_numberWithShift_length _ 128 (by norm_num),
    pack_numberWithShift_length _ 8 (by norm_num),
    pack_bool_length]
  have hstr : (pack (SolidityDataType.string asm_address)).length =
      (strBytes asm_address).length := rfl
  rw [hstr]
  omega

/-! ## Reply-path lemmas -/

theorem except_toOption_eq_some {ε α : Type} (e : Except ε α) (a : α) :
    e.toOption = some a ↔ e = .ok a := by
  cases e <;> simp [Except.toOption]

theorem successId_some_inv (r : Reply) (i : Nat) (h : successId r = some i) :
    r.id = ISEND_ID ∧
      ∃ resp d, parse_reply_execute_data r = .ok resp ∧ resp.data = some d ∧
        from_binary_u64 d = some i := by
  unfold successId at h
  by_cases hid : r.id = ISEND_ID
  · rw [if_pos hid] at h
    rcases Option.bind_eq_some.mp h with ⟨resp, h1, h2⟩
    rcases Option.bind_eq_some.mp h2 with ⟨d, hd, hf⟩
    exact ⟨hid, resp, d, (except_toOption_eq_some _ _).mp h1, hd, hf⟩
  · rw [if_neg hid] at h
    simp at h

theorem handle_ok_of_parse (st : ContractState) (r : Reply)
    (resp : MsgExecuteContractResponse) (d : List Nat) (i : Nat)
    (hp : parse_reply_execute_data r = .ok resp) (hd : resp.data = some d)
    (hf : from_binary_u64 d = some i) :
    handle_i_send_reply st r =
      .ok { st with pending := some { requests := pendingList st ++ [i] } }
        { data := some (toBinaryString
            ("handle_i_send_reply, request_identifier: " ++ toString i)) } := by
  simp [handle_i_send_reply, hp, hd, hf, pendingList]

theorem processReplies_pendingList (rs : List Reply) (ids : List Nat)
    (h : List.Forall₂ (fun r i => successId r = some i) rs ids) :
    ∀ st : ContractState, pendingList (processReplies st rs) = pendingList st ++ ids := by
  induction h with
  | nil => intro st; simp [processReplies, pendingList]
  | @cons r i rs ids hri _ ih =>
    intro st
    rcases successId_some_inv r i hri with ⟨hid, resp, d, hp, hd, hf⟩
    have hstep : replyStep st r =
        { st with pending := some { requests := pendingList st ++ [i] } } := by
      simp [replyStep, replyEntry, hid, handle_ok_of_parse st r resp d i hp hd hf]
    have hcons : processReplies st (r :: rs) = processReplies (replyStep st r) rs := rfl
    rw [hcons, ih (replyStep st r), hstep]
    simp [pendingList]

/-- **C3.** Starting from an empty (or never-written) pending ledger, a
sequence of reply invocations with id 125 whose sub-message results are
successes carrying decodable 64-bit identifiers leaves the ledger holding
exactly those identifiers in delivery order (hence with length `N` after
`N` such replies); and any reply invocation that returns an error commits
no state change — the ledger only grows, and only during a successful
reply correlation. -/
theorem pending_ledger_monotone :
    (∀ (st0 : ContractState) (rs : List Reply) (ids : List Nat),
        (st0.pending = none ∨ st0.pending = some { requests := [] }) →
        List.Forall₂ (fun r i => successId r = some i) rs ids →
        pendingList (processReplies st0 rs) = ids ∧ ids.length = rs.length) ∧
    ∀ (st : ContractState) (r : Reply) (e : ContractError),
      replyEntry st r = .err e → replyStep st r = st := by
  constructor
  · intro st0 rs ids h0 hfa
    have hstart : pendingList st0 = [] := by
      rcases h0 with h | h <;> simp [pendingList, h]
    refine ⟨?_, (List.Forall₂.length_eq hfa).symm⟩
    rw [processReplies_pendingList rs ids hfa st0, hstart]
    simp
  · intro st r e h
    simp [replyStep, h]

/-- Witness for C3: one successful reply correlation, whose sub-message
data is the protobuf-wrapped JSON number `5`, appends identifier 5 to the
empty ledger. -/
theorem pending_ledger_monotone_witness :
    pendingList (processReplies emptyState
        [{ id := 125, result := SubMsgResult.ok { data := some [10, 1, 53] } }]) =
      [5] ∧
    ([5] : List Nat).length =
      [({ id := 125, result := SubMsgResult.ok { data := some [10, 1, 53] } } : Reply)].length :=
  pending_ledger_monotone.1 emptyState
    [{ id := 125, result := SubMsgResult.ok { data := some [10, 1, 53] } }] [5]
    (Or.inl rfl) (List.Forall₂.cons rfl List.Forall₂.nil)

/-- **C5.** A reply invocation whose id is not the fixed operation tag 125
is answered with a generic "invalid reply id" error and commits no state
change; only id 125 reaches the send-reply handler. -/
theorem reply_unknown_id_fatal (st : ContractState) (r : Reply)
    (h : r.id ≠ ISEND_ID) :
    replyEntry st r =
      .err (.std (.genericErr
        "=========================invalid reply id==========================")) ∧
    replyStep st r = st := by
  have h1 : replyEntry st r =
      .err (.std (.genericErr
        "=========================invalid reply id==========================")) := by
    rw [replyEntry, if_neg h]
  exact ⟨h1, by simp [replyStep, h1]⟩

/-- Witness for C5 at reply id 0. -/
theorem reply_unknown_id_fatal_witness :
    (({ id := 0, result := SubMsgResult.err "boom" } : Reply).id ≠ ISEND_ID) ∧
    replyEntry emptyState { id := 0, result := SubMsgResult.err "boom" } =
      .err (.std (.genericErr
        "=========================invalid reply id==========================")) ∧
    replyStep emptyState { id := 0, result := SubMsgResult.err "boom" } = emptyState :=
  ⟨by decide,
    (reply_unknown_id_fatal emptyState _ (by decide)).1,
    (reply_unknown_id_fatal emptyState _ (by decide)).2⟩

/-- **C10.** `handle_i_send_reply` unconditionally unwraps the optional
data field of the successfully parsed execute response: it panics exactly
when the parse succeeds with an absent data payload, instead of returning
a classified decode error — and that situation is reachable, e.g. from a
success reply whose sub-message data is an empty protobuf message. -/
theorem reply_success_missing_data_panics :
    (∀ (st : ContractState) (r : Reply),
        handle_i_send_reply st r = ReplyOutcome.panicked ↔
          ∃ resp, parse_reply_execute_data r = .ok resp ∧ resp.data = none) ∧
    handle_i_send_reply emptyState
        { id := ISEND_ID, result := SubMsgResult.ok { data := some [] } } =
      ReplyOutcome.panicked := by
  constructor
  · intro st r
    constructor
    · intro h
      rcases hp : parse_reply_execute_data r with e | resp
      · rw [handle_i_send_reply] at h
        simp [hp] at h
      · rcases hd : resp.data with _ | d
        · exact ⟨resp, rfl, hd⟩
        · rw [handle_i_send_reply] at h
          rcases hf : from_binary_u64 d with _ | i <;> simp [hp, hd, hf] at h
    · rintro ⟨resp, hp, hd⟩
      simp [handle_i_send_reply, hp, hd]
  · rfl

/-- Witness for C10: the success reply with sub-message data `[]` (an empty
protobuf message, hence an absent data field) drives the handler into the
panic. -/
theorem reply_success_missing_data_panics_witness :
    handle_i_send_reply emptyState
        { id := 125, result := SubMsgResult.ok { data := some [] } } =
      ReplyOutcome.panicked :=
  (reply_success_missing_data_panics.1 emptyState
      { id := 125, result := SubMsgResult.ok { data := some [] } }).mpr
    ⟨{ data := none }, rfl, rfl⟩

/-- **C6.** For an i_ack invocation whose `exec_data` is a well-formed
single-dynamic-bytes ABI buffer, `execute_i_ack` persists the decoded inner
bytes as the last-request snapshot, builds the diagnostic string embedding
the contract address, the identifier, the status flag and the decoded data,
ABI-encodes it, persists it as the last-result snapshot, and returns it as
the invocation's result data; a malformed `exec_data` fails with the decode
error. -/
theorem i_ack_behavior :
    (∀ (st : ContractState) (env : Env) (request_identifier : Nat)
        (exec_status : Bool) (x : List Nat), x.length < 2 ^ 32 →
        execute_i_ack st env request_identifier exec_status
            (ethabi_encode [EthToken.bytes x]) =
          .ok ({ st with
                  request := some x
                  result := some (abi_encode_string
                    (ackText env.contractAddress request_identifier exec_status x)) },
              { data := some (abi_encode_string
                  (ackText env.contractAddress request_identifier exec_status x)) })) ∧
    ∀ (st : ContractState) (env : Env) (request_identifier : Nat)
        (exec_status : Bool) (exec_data : List Nat) (e : ContractError),
      abi_decode_to_binary exec_data = .error e →
      execute_i_ack st env request_identifier exec_status exec_data = .error e := by
  constructor
  · intro st env rid status x hx
    have hdec : abi_decode_to_binary (ethabi_encode [EthToken.bytes x]) = .ok x := by
      rw [abi_decode_to_binary, decode_encode_bytes x hx]
    simp [execute_i_ack, hdec]
  · intro st env rid status d e h
    simp [execute_i_ack, h]

/-- Witness for C6 at the payload `[1, 2]`. -/
theorem i_ack_behavior_witness :
    ([1, 2] : List Nat).length < 2 ^ 32 ∧
      execute_i_ack emptyState { contractAddress := "cosmos2contract" } 7 true
          (ethabi_encode [EthToken.bytes [1, 2]]) =
        .ok ({ emptyState with
                request := some [1, 2]
                result := some (abi_encode_string
                  (ackText "cosmos2contract" 7 true [1, 2])) },
            { data := some (abi_encode_string
                (ackText "cosmos2contract" 7 true [1, 2])) }) :=
  ⟨by norm_num,
    i_ack_behavior.1 emptyState { contractAddress := "cosmos2contract" } 7 true [1, 2]
      (by norm_num)⟩

/-! ## Registration-path lemmas -/

theorem register_ok_inv (st : ContractState) (info : MessageInfo) (name : String)
    (st1 : ContractState) (r1 : Response)
    (h : execute_register st info name = .ok (st1, r1)) :
    validate_name name = .ok () ∧
      ∃ config, st.config = some config ∧
        assert_sent_sufficient_coin info.funds config.purchase_price = .ok () ∧
        st.name_resolver (strBytes name) = none ∧
        st1 = { st with
          name_resolver :=
            mapSave st.name_resolver (strBytes name) { owner := info.sender },
          result := some (abi_encode_string
            ("execute_register, name: " ++ name ++ ", owner: " ++ info.sender)) } := by
  cases hv : validate_name name with
  | error e => simp [execute_register, hv] at h
  | ok u =>
    cases u
    cases hc : st.config with
    | none => simp [execute_register, loadConfig, hv, hc] at h
    | some config =>
      cases ha : assert_sent_sufficient_coin info.funds config.purchase_price with
      | error e => simp [execute_register, loadConfig, hv, hc, ha] at h
      | ok u2 =>
        cases u2
        cases hl : st.name_resolver (strBytes name) with
        | some record => simp [execute_register, loadConfig, hv, hc, ha, hl] at h
        | none =>
          simp [execute_register, loadConfig, hv, hc, ha, hl] at h
          exact ⟨rfl, config, rfl, ha, rfl, h.1.symm⟩

/-- **C7.** After a first successful register of a (valid) name, the stored
record's owner is the registering identity; a second register of the same
name — by any sender whose funds satisfy the configured purchase price —
fails with the "name taken" error and commits no state change, leaving the
stored owner intact. -/
theorem register_twice_name_taken (st : ContractState) (info1 info2 : MessageInfo)
    (name : String) (st1 : ContractState) (r1 : Response)
    (hfirst : execute_register st info1 name = .ok (st1, r1))
    (hfunds2 : ∀ config, st.config = some config →
      assert_sent_sufficient_coin info2.funds config.purchase_price = .ok ()) :
    st1.name_resolver (strBytes name) = some { owner := info1.sender } ∧
      execute_register st1 info2 name = .error (.nameTaken name) ∧
      registerStep st1 info2 name = st1 := by
  rcases register_ok_inv st info1 name st1 r1 hfirst with ⟨hv, config, hc, _, _, hst1⟩
  have howner : st1.name_resolver (strBytes name) = some { owner := info1.sender } := by
    rw [hst1]; simp [mapSave]
  have hc1 : st1.config = some config := by rw [hst1]; exact hc
  have hsecond : execute_register st1 info2 name = .error (.nameTaken name) := by
    simp [execute_register, hv, loadConfig, hc1, hfunds2 config hc, howner]
  exact ⟨howner, hsecond, by simp [registerStep, hsecond]⟩

/-- A configuration with no purchase and no transfer price, and a state
holding only that configuration (concrete inputs for the witnesses). -/
def freeConfig : Config := { purchase_price := none, transfer_price := none }

def cfgState : ContractState := { emptyState with config := some freeConfig }

def senderOne : MessageInfo := { sender := "owner-one", funds := [] }

def senderTwo : MessageInfo := { sender := "owner-two", funds := [] }

/-- The state after `senderOne` registers the name `"alice"` in `cfgState`. -/
def afterFirstRegister : ContractState :=
  { cfgState with
    name_resolver :=
      mapSave cfgState.name_resolver (strBytes "alice") { owner := "owner-one" },
    result := some (abi_encode_string
      ("execute_register, name: " ++ "alice" ++ ", owner: " ++ "owner-one")) }

def firstRegisterResponse : Response :=
  { data := some (abi_encode_string
      ("execute_register, name: " ++ "alice" ++ ", owner: " ++ "owner-one")) }

/-- Witness for C7: `senderOne` registers `"alice"`, then `senderTwo`'s
attempt fails with the name-taken error and the owner is unchanged. -/
theorem register_twice_name_taken_witness :
    afterFirstRegister.name_resolver (strBytes "alice") = some { owner := "owner-one" } ∧
      execute_register afterFirstRegister senderTwo "alice" =
        .error (.nameTaken "alice") ∧
      registerStep afterFirstRegister senderTwo "alice" = afterFirstRegister :=
  register_twice_name_taken cfgState senderOne senderTwo "alice"
    afterFirstRegister firstRegisterResponse (by rfl)
    (fun config hcfg => by
      injection hcfg with h2
      rw [← h2]
      rfl)

/-- **C8.** A transfer of a registered name attempted by a sender who is
not the record's owner fails with the authorization error and commits no
state change (the name map, in particular the record's owner, is left
untouched); a transfer of a non-existent name fails with the
name-not-exists error. -/
theorem transfer_unauthorized_or_missing (api : String → Option String)
    (st : ContractState) (info : MessageInfo) (name toAddr : String)
    (config : Config) (new_owner : String)
    (hc : st.config = some config)
    (hf : assert_sent_sufficient_coin info.funds config.transfer_price = .ok ())
    (hapi : api toAddr = some new_owner) :
    (∀ record, st.name_resolver (strBytes name) = some record →
        info.sender ≠ record.owner →
        execute_transfer api st info name toAddr = .error .unauthorized ∧
          transferStep api st info name toAddr = st) ∧
    (st.name_resolver (strBytes name) = none →
      execute_transfer api st info name toAddr = .error (.nameNotExists name)) := by
  constructor
  · intro record hrec hne
    have h1 : execute_transfer api st info name toAddr = .error .unauthorized := by
      simp [execute_transfer, loadConfig, hc, hf, hapi, hrec, hne]
    exact ⟨h1, by simp [transferStep, h1]⟩
  · intro hrec
    simp [execute_transfer, loadConfig, hc, hf, hapi, hrec]

/-- Witness for C8: in the state where `"alice"` belongs to `owner-one`, a
transfer by `owner-two` is refused as unauthorized with no state change,
and a transfer of the unregistered `"missing"` fails as non-existent. -/
theorem transfer_unauthorized_or_missing_witness :
    execute_transfer (fun s => some s) afterFirstRegister senderTwo "alice"
        "owner-two" = .error .unauthorized ∧
      transferStep (fun s => some s) afterFirstRegister senderTwo "alice"
        "owner-two" = afterFirstRegister ∧
      execute_transfer (fun s => some s) afterFirstRegister senderTwo "missing"
        "owner-two" = .error (.nameNotExists "missing") :=
  ⟨((transfer_unauthorized_or_missing (fun s => some s) afterFirstRegister senderTwo
        "alice" "owner-two" freeConfig "owner-two" rfl rfl rfl).1
      { owner := "owner-one" } (by rfl) (by decide)).1,
    ((transfer_unauthorized_or_missing (fun s => some s) afterFirstRegister senderTwo
        "alice" "owner-two" freeConfig "owner-two" rfl rfl rfl).1
      { owner := "owner-one" } (by rfl) (by decide)).2,
    (transfer_unauthorized_or_missing (fun s => some s) afterFirstRegister senderTwo
        "missing" "owner-two" freeConfig "owner-two" rfl rfl rfl).2 (by rfl)⟩

/-- **C9.** An inbound receive whose decoded inner payload is a message
variant outside the closed set Register/Transfer is answered with the
generic "unrecognized message" error (`StdError::generic_err("msg")`)
rather than silently succeeding. -/
theorem i_receive_unknown_variant_rejected (api : String → Option String)
    (st : ContractState) (info : MessageInfo) (msg : ExecuteMsg)
    (hreg : ∀ name, msg ≠ ExecuteMsg.register name)
    (htr : ∀ name toAddr, msg ≠ ExecuteMsg.transfer name toAddr) :
    execute_i_receive_dispatch api st info msg =
      .error (.std (.genericErr "msg")) := by
  cases msg with
  | register name => exact absurd rfl (hreg name)
  | transfer name toAddr => exact absurd rfl (htr name toAddr)
  | iSend a b c d e f g p => rfl
  | iReceive a b c => rfl
  | iAck a b c => rfl
  | setDappMetadata a b => rfl

/-- Witness for C9 at the `IAck` variant. -/
theorem i_receive_unknown_variant_rejected_witness :
    execute_i_receive_dispatch (fun s => some s) emptyState senderOne
        (ExecuteMsg.iAck 0 false []) = .error (.std (.genericErr "msg")) :=
  i_receive_unknown_variant_rejected (fun s => some s) emptyState senderOne
    (ExecuteMsg.iAck 0 false [])
    (fun _ h => ExecuteMsg.noConfusion h)
    (fun _ _ h => ExecuteMsg.noConfusion h)

end CwHandler
